import Mathlib

/-!
Shallow embedding of `main.py` of the brainrot_generator repository, and
verification of the spec's claims about it.

The embedded functions keep the source's names:
* `filter_text`                 — main.py lines 44-57 (the Text Sanitizer)
* `generate_subtitle_timestamps`— main.py lines 107-128 (the Subtitle Pacer)
* `pick_random_video`           — main.py lines 99-105 (the Background Selector)
* `resize_crop_dims`            — main.py lines 136-138 (the Frame Transformer geometry)
* `compose`                     — main.py lines 142-151 (the Composer layering)

Python strings are modelled as `List Char` (wrapped in Lean `String` at the
interfaces), Python floats as `ℚ` (exact arithmetic; the pacing algorithm only
divides, multiplies and takes `min`), Python ints as `ℕ`/`ℤ`.
-/

/-- Python `str.isspace` characters relevant to `str.split()` (ASCII range). -/
def pyIsSpace (c : Char) : Bool :=
  c = ' ' || c = '\t' || c = '\n' || c = '\r' || c = '\x0b' || c = '\x0c'

/-- Worker for Python `str.split()` (no argument): split on runs of whitespace,
never producing empty tokens.  `acc` holds the characters of the token being
read, in reverse. -/
def pySplitAux : List Char → List Char → List (List Char)
  | [], acc => if acc = [] then [] else [acc.reverse]
  | c :: cs, acc =>
    if pyIsSpace c then
      if acc = [] then pySplitAux cs [] else acc.reverse :: pySplitAux cs []
    else
      pySplitAux cs (c :: acc)

/-- Python `text.split()` — whitespace tokenization, main.py lines 47 and 109. -/
def pySplit (s : List Char) : List (List Char) := pySplitAux s []

/-- Python `" ".join(words)` — main.py lines 57 and 123. -/
def joinWords : List (List Char) → List Char
  | [] => []
  | [w] => w
  | w :: ws => w ++ ' ' :: joinWords ws

/-- The `FAMILY_FRIENDLY_REPLACEMENTS` dict, main.py lines 13-22, as an
association list (Python dict lookup on these literal keys). -/
def FAMILY_FRIENDLY_REPLACEMENTS : List (List Char × List Char) :=
  [("damn".data,    "darn".data),
   ("hell".data,    "heck".data),
   ("shit".data,    "poop".data),
   ("fuck".data,    "fudge".data),
   ("bitch".data,   "witch".data),
   ("whore".data,   "witch".data),
   ("asshole".data, "meanie".data),
   ("bastard".data, "rascal".data)]

/-- Python `word.lower()` (ASCII case folding; the table's keys are ASCII). -/
def pyLower (w : List Char) : List Char := w.map Char.toLower

/-- The per-word replacement of main.py lines 50-55.  The source's conditional
expression has identical branches — both equal
`FAMILY_FRIENDLY_REPLACEMENTS.get(word.lower(), word)` — which is this. -/
def replaceWord (w : List Char) : List Char :=
  (FAMILY_FRIENDLY_REPLACEMENTS.lookup (pyLower w)).getD w

/-- The function `filter_text`, main.py lines 44-57.  (The `profanity.load_censor_words()`
call on line 46 only mutates external-library state and does not affect the
return value, so it has no counterpart here.) -/
def filter_text (text : String) : String :=
  ⟨joinWords ((pySplit text.data).map replaceWord)⟩

/-- A timed subtitle chunk, the dicts built at main.py lines 122-126. -/
structure SubtitleSegment where
  text : String
  start_time : ℚ
  end_time : ℚ
deriving DecidableEq, Repr

/-- Python `[words[i:i+2] for i in range(0, len(words), 2)]`, main.py line 115. -/
def chunk2 : List α → List (List α)
  | [] => []
  | [a] => [[a]]
  | a :: b :: rest => [a, b] :: chunk2 rest

/-- The function `generate_subtitle_timestamps`, main.py lines 107-128.  On token-free input
the source prints an error message and returns the empty list (lines 110-112);
the print has no counterpart here. -/
def generate_subtitle_timestamps (text : String) (audio_duration : ℚ) :
    List SubtitleSegment :=
  let words := pySplit text.data
  if words = [] then []
  else
    let word_groups := chunk2 words
    let segment_duration := audio_duration / word_groups.length
    word_groups.enum.map fun p =>
      { text := ⟨joinWords p.2⟩
        start_time := p.1 * segment_duration
        end_time := min ((p.1 + 1) * segment_duration) audio_duration }

/-- The failure signalled by `print(...); exit(1)` at main.py lines 103-104:
the process aborts, which the spec names `NoAssetsError`. -/
inductive SelectorError where
  | NoAssetsError
deriving DecidableEq, Repr

/-- Python `fnmatch` of the glob pattern `"*.mp4"` (main.py line 101): the name
ends in `".mp4"`. -/
def matchesMp4 (f : String) : Bool := (".mp4".data).isSuffixOf f.data

/-- The function `pick_random_video`, main.py lines 99-105.  The folder is modelled by the
list of its file names; `random.choice` draws `seq[_randbelow(len(seq))]`, an
index in `[0, len)`, modelled by `r % len` for an arbitrary `r`. -/
def pick_random_video (files : List String) (r : ℕ) : Except SelectorError String :=
  match files.filter (fun f => matchesMp4 f) with
  | [] => .error .NoAssetsError
  | v :: vs =>
    .ok ((v :: vs).get ⟨r % (v :: vs).length, Nat.mod_lt _ (Nat.succ_pos _)⟩)

/-- Python `int()` applied to an exact rational value: truncation toward zero. -/
def pytrunc (q : ℚ) : ℤ := if 0 ≤ q then ⌊q⌋ else ⌈q⌉

/-- Normalize a (possibly negative) numpy slice bound against length `n`. -/
def npBound (n : ℕ) (i : ℤ) : ℕ :=
  if i < 0 then (max (i + n) 0).toNat else min i.toNat n

/-- Length of the numpy slice `a[s:t]` of an axis of length `n`. -/
def npSliceLen (n : ℕ) (s t : ℤ) : ℕ := npBound n t - npBound n s

/-- Output frame dimensions of main.py lines 136-138 for a source of `w × h`
pixels: `resize(height=1920)` scales the width to `int(w * 1920 / h)`, then
`crop(x_center=w'/2, y_center=h'/2, width=1080, height=1920)` takes the numpy
slice `frame[int(y1):int(y2), int(x1):int(x2)]` with
`x1 = x_center - 1080/2`, `x2 = x_center + 1080/2`,
`y1 = y_center - 1920/2`, `y2 = y_center + 1920/2` (moviepy's crop fx). -/
def resize_crop_dims (w h : ℕ) : ℕ × ℕ :=
  let w' : ℕ := w * 1920 / h
  let h' : ℕ := 1920
  let x1 := pytrunc ((w' : ℚ) / 2 - 1080 / 2)
  let x2 := pytrunc ((w' : ℚ) / 2 + 1080 / 2)
  let y1 := pytrunc ((h' : ℚ) / 2 - 1920 / 2)
  let y2 := pytrunc ((h' : ℚ) / 2 + 1920 / 2)
  (npSliceLen w' x1 x2, npSliceLen h' y1 y2)

/-- One subtitle overlay layer: the `TextClip` configured at main.py
lines 144-148 (`set_start(start_time)`, `set_duration(end_time - start_time)`). -/
structure TextOverlay where
  text : String
  start_time : ℚ
  duration : ℚ
deriving DecidableEq, Repr

/-- The assembled `CompositeVideoClip([video] + subtitle_clips).set_audio(audio)`
of main.py line 151: base video layer, subtitle overlays in segment order,
audio layer. -/
structure Timeline where
  baseVideo : String
  overlays : List TextOverlay
  audio : String
deriving DecidableEq, Repr

/-- The layering loop and composition of main.py lines 142-151. -/
def compose (video audio : String) (subtitle_parts : List SubtitleSegment) : Timeline :=
  { baseVideo := video
    overlays := subtitle_parts.map fun s =>
      { text := s.text, start_time := s.start_time, duration := s.end_time - s.start_time }
    audio := audio }

example : pySplit "this is a test message".data =
    ["this".data, "is".data, "a".data, "test".data, "message".data] := by decide

example : filter_text "What the  hell" = "What the heck" := by decide

example : resize_crop_dims 1920 1080 = (1080, 1920) := by
  norm_num [resize_crop_dims, npSliceLen, npBound, pytrunc]
  decide

example : resize_crop_dims 540 1920 = (270, 1920) := by
  norm_num [resize_crop_dims, npSliceLen, npBound, pytrunc, Int.ceil_neg,
    Int.ceil_intCast, Int.ceil_natCast]
  decide

/-! ### Lemmas about the pacing algorithm -/

theorem chunk2_length (l : List α) : (chunk2 l).length = (l.length + 1) / 2 := by
  induction l using chunk2.induct with
  | case1 => simp [chunk2]
  | case2 a => simp [chunk2]
  | case3 a b rest ih => simp [chunk2, ih]; omega

theorem chunk2_flatten (l : List α) : (chunk2 l).flatten = l := by
  induction l using chunk2.induct with
  | case1 => simp [chunk2]
  | case2 a => simp [chunk2]
  | case3 a b rest ih => simp [chunk2, ih]

theorem chunk2_eq_nil_iff (l : List α) : chunk2 l = [] ↔ l = [] := by
  induction l using chunk2.induct with
  | case1 => simp [chunk2]
  | case2 a => simp [chunk2]
  | case3 a b rest ih => simp [chunk2]

theorem chunk2_pair (l : List α) (i : ℕ) (h : i + 1 < (chunk2 l).length) :
    ((chunk2 l).get ⟨i, Nat.lt_of_succ_lt h⟩).length = 2 := by
  induction l using chunk2.induct generalizing i with
  | case1 => simp [chunk2] at h
  | case2 a => simp [chunk2] at h
  | case3 a b rest ih =>
    match i with
    | 0 => simp [chunk2]
    | Nat.succ j =>
      simp only [chunk2, List.length_cons] at h ⊢
      simpa using ih j (by omega)

theorem chunk2_getLast_odd (l : List α) (h : l.length % 2 = 1) :
    ((chunk2 l).getLast?).map List.length = some 1 := by
  induction l using chunk2.induct with
  | case1 => simp at h
  | case2 a => simp [chunk2]
  | case3 a b rest ih =>
    have hr : rest.length % 2 = 1 := by simp at h; omega
    have hrne : rest ≠ [] := by intro hn; rw [hn] at hr; simp at hr
    have hcne : chunk2 rest ≠ [] := by
      intro hn; exact hrne ((chunk2_eq_nil_iff rest).mp hn)
    obtain ⟨c, cs, hc⟩ := List.exists_cons_of_ne_nil hcne
    rw [chunk2, hc, List.getLast?_cons_cons, ← hc]
    exact ih hr

theorem gst_length (text : String) (d : ℚ) :
    (generate_subtitle_timestamps text d).length =
      (chunk2 (pySplit text.data)).length := by
  by_cases hw : pySplit text.data = []
  · simp [generate_subtitle_timestamps, hw, chunk2]
  · simp [generate_subtitle_timestamps, hw]

theorem gst_get (text : String) (d : ℚ) (i : ℕ)
    (h : i < (generate_subtitle_timestamps text d).length) :
    (generate_subtitle_timestamps text d).get ⟨i, h⟩ =
      { text := ⟨joinWords ((chunk2 (pySplit text.data)).getD i [])⟩
        start_time := i * (d / (chunk2 (pySplit text.data)).length)
        end_time := min ((i + 1) * (d / (chunk2 (pySplit text.data)).length)) d } := by
  have hi : i < (chunk2 (pySplit text.data)).length := by
    rw [← gst_length text d]; exact h
  by_cases hw : pySplit text.data = []
  · rw [hw] at hi; simp [chunk2] at hi
  · simp only [List.get_eq_getElem, generate_subtitle_timestamps, if_neg hw,
      List.getElem_map, List.getElem_enum]
    rw [List.getD_eq_getElem _ _ hi]

theorem chunk2_pos (text : String) (hw : pySplit text.data ≠ []) :
    0 < (chunk2 (pySplit text.data)).length := by
  rw [List.length_pos]
  exact fun hn => hw ((chunk2_eq_nil_iff _).mp hn)

/-- Claim C1: For every input whose whitespace tokenization is a non-empty list of
`n` words and every audio duration `d > 0`, `generate_subtitle_timestamps`
returns exactly `⌈n/2⌉ = (n+1)/2` segments; the first segment starts at `0`,
each segment's `end_time` equals the next segment's `start_time`, and the last
segment's `end_time` equals `d` exactly. -/
theorem pacer_covers_duration (text : String) (d : ℚ)
    (hw : pySplit text.data ≠ []) (hd : 0 < d) :
    (generate_subtitle_timestamps text d).length =
        ((pySplit text.data).length + 1) / 2 ∧
    (∀ h0 : 0 < (generate_subtitle_timestamps text d).length,
      ((generate_subtitle_timestamps text d).get ⟨0, h0⟩).start_time = 0) ∧
    (∀ i, ∀ h1 : i < (generate_subtitle_timestamps text d).length,
      ∀ h2 : i + 1 < (generate_subtitle_timestamps text d).length,
      ((generate_subtitle_timestamps text d).get ⟨i, h1⟩).end_time =
        ((generate_subtitle_timestamps text d).get ⟨i + 1, h2⟩).start_time) ∧
    (∀ h0 : 0 < (generate_subtitle_timestamps text d).length,
      ((generate_subtitle_timestamps text d).get
          ⟨(generate_subtitle_timestamps text d).length - 1,
            Nat.sub_lt h0 Nat.one_pos⟩).end_time = d) := by
  have hk : 0 < (chunk2 (pySplit text.data)).length := chunk2_pos text hw
  have hkQ : (0 : ℚ) < ((chunk2 (pySplit text.data)).length : ℚ) := by
    exact_mod_cast hk
  refine ⟨?_, ?_, ?_, ?_⟩
  · rw [gst_length, chunk2_length]
  · intro h0
    rw [gst_get]
    simp
  · intro i h1 h2
    rw [gst_get, gst_get]
    have hik : i + 1 < (chunk2 (pySplit text.data)).length := by
      rwa [gst_length] at h2
    have h1le : ((i : ℚ) + 1) ≤ ((chunk2 (pySplit text.data)).length : ℚ) := by
      exact_mod_cast hik.le
    have hle : ((i : ℚ) + 1) * (d / ((chunk2 (pySplit text.data)).length : ℚ)) ≤ d := by
      calc ((i : ℚ) + 1) * (d / ((chunk2 (pySplit text.data)).length : ℚ))
          ≤ ((chunk2 (pySplit text.data)).length : ℚ) *
              (d / ((chunk2 (pySplit text.data)).length : ℚ)) :=
            mul_le_mul_of_nonneg_right h1le (div_nonneg hd.le hkQ.le)
        _ = d := by rw [mul_comm, div_mul_cancel₀ d (ne_of_gt hkQ)]
    show min _ _ = _
    rw [min_eq_left hle]
    push_cast
    ring
  · intro h0
    rw [gst_get]
    have hlen : (generate_subtitle_timestamps text d).length =
        (chunk2 (pySplit text.data)).length := gst_length text d
    simp only [hlen]
    have h5 : (((chunk2 (pySplit text.data)).length - 1 : ℕ) : ℚ) + 1 =
        ((chunk2 (pySplit text.data)).length : ℚ) := by
      have h6 : (chunk2 (pySplit text.data)).length - 1 + 1 =
          (chunk2 (pySplit text.data)).length := by omega
      exact_mod_cast h6
    show min _ _ = _
    rw [h5, mul_comm, div_mul_cancel₀ d (ne_of_gt hkQ), min_self]

theorem pacer_covers_duration_witness :
    (generate_subtitle_timestamps "this is a test message" 10).length = 3 := by
  rw [(pacer_covers_duration "this is a test message" 10 (by decide) (by decide)).1]
  decide

/-- Claim C3, counterexample: On the empty input (zero whitespace tokens) the
pacer returns the empty list as a normal result — it does not signal a typed
`EmptyInputError` (the source merely prints a message and returns `[]`,
main.py lines 110-112). -/
theorem pacer_empty_input_counterexample :
    generate_subtitle_timestamps "" 1 = [] := by
  simp [generate_subtitle_timestamps, pySplit, pySplitAux]

/-- Claim C3, amended: On input with no whitespace tokens the pacer returns the
empty segment list as a normal result (after printing an error message); no
typed error is raised and the caller proceeds with zero segments. -/
theorem pacer_empty_input_amended (text : String) (d : ℚ)
    (hw : pySplit text.data = []) :
    generate_subtitle_timestamps text d = [] := by
  simp [generate_subtitle_timestamps, hw]

theorem pacer_empty_input_amended_witness :
    generate_subtitle_timestamps "   " 5 = [] :=
  pacer_empty_input_amended "   " 5 (by decide)

/-- Claim C8: For every input with at least one whitespace token, the pacer at
`audio_duration = 0` returns a non-empty segment list (a normal result) in
which every segment has `start_time = end_time = 0`. -/
theorem pacer_zero_duration (text : String) (hw : pySplit text.data ≠ []) :
    0 < (generate_subtitle_timestamps text 0).length ∧
    ∀ i, ∀ h : i < (generate_subtitle_timestamps text 0).length,
      ((generate_subtitle_timestamps text 0).get ⟨i, h⟩).start_time = 0 ∧
      ((generate_subtitle_timestamps text 0).get ⟨i, h⟩).end_time = 0 := by
  refine ⟨by rw [gst_length]; exact chunk2_pos text hw, ?_⟩
  intro i h
  rw [gst_get]
  simp

theorem pacer_zero_duration_witness :
    0 < (generate_subtitle_timestamps "hello world" 0).length :=
  (pacer_zero_duration "hello world" (by decide)).1

theorem gst_getElem (text : String) (d : ℚ) (i : ℕ)
    (h : i < (generate_subtitle_timestamps text d).length) :
    (generate_subtitle_timestamps text d)[i] =
      { text := ⟨joinWords ((chunk2 (pySplit text.data)).getD i [])⟩
        start_time := i * (d / (chunk2 (pySplit text.data)).length)
        end_time := min ((i + 1) * (d / (chunk2 (pySplit text.data)).length)) d } :=
  gst_get text d i h

/-- Claim C2: The pacer groups the whitespace tokens, in input order, into chunks
of exactly two words (the final chunk holds one word when the token count is
odd); each segment's text is its chunk's words joined by single spaces, in
chunk order.  Concretely, `"this is a test message"` with duration `10` gives
three segments `"this is"`, `"a test"`, `"message"` spanning
`[0, 10/3]`, `[10/3, 20/3]`, `[20/3, 10]`. -/
theorem pacer_chunking (text : String) (d : ℚ) :
    (chunk2 (pySplit text.data)).flatten = pySplit text.data ∧
    (∀ i, ∀ h : i + 1 < (chunk2 (pySplit text.data)).length,
      ((chunk2 (pySplit text.data)).get ⟨i, Nat.lt_of_succ_lt h⟩).length = 2) ∧
    ((pySplit text.data).length % 2 = 1 →
      ((chunk2 (pySplit text.data)).getLast?).map List.length = some 1) ∧
    ((generate_subtitle_timestamps text d).map SubtitleSegment.text =
      (chunk2 (pySplit text.data)).map fun g => (⟨joinWords g⟩ : String)) ∧
    generate_subtitle_timestamps "this is a test message" 10 =
      [{ text := "this is", start_time := 0, end_time := 10/3 },
       { text := "a test", start_time := 10/3, end_time := 20/3 },
       { text := "message", start_time := 20/3, end_time := 10 }] := by
  refine ⟨chunk2_flatten _, fun i h => chunk2_pair _ i h, chunk2_getLast_odd _, ?_, ?_⟩
  · by_cases hw : pySplit text.data = []
    · simp [generate_subtitle_timestamps, hw, chunk2]
    · simp only [generate_subtitle_timestamps, if_neg hw]
      apply List.ext_getElem
      · simp
      · intro i h1 h2
        simp [List.getElem_map, List.getElem_enum]
  · have hlen3 : (generate_subtitle_timestamps "this is a test message" 10).length = 3 := by
      rw [gst_length]; decide
    apply List.ext_getElem
    · rw [hlen3]; rfl
    · intro i h1 h2
      rw [hlen3] at h1
      rw [gst_getElem]
      have hc3 : (chunk2 (pySplit "this is a test message".data)).length = 3 := by
        decide
      simp only [hc3]
      interval_cases i
      · simp only [List.getElem_cons_zero, SubtitleSegment.mk.injEq]
        refine ⟨by decide, by norm_num, ?_⟩
        rw [min_eq_left (by norm_num)]
        norm_num
      · simp only [List.getElem_cons_succ, List.getElem_cons_zero,
          SubtitleSegment.mk.injEq]
        refine ⟨by decide, by norm_num, ?_⟩
        rw [min_eq_left (by norm_num)]
        norm_num
      · simp only [List.getElem_cons_succ, List.getElem_cons_zero,
          SubtitleSegment.mk.injEq]
        refine ⟨by decide, by norm_num, ?_⟩
        rw [min_eq_left (by norm_num)]
        norm_num

theorem pacer_chunking_witness :
    ((chunk2 (pySplit "this is a test message".data)).getLast?).map List.length =
      some 1 :=
  (pacer_chunking "this is a test message" 10).2.2.1 (by decide)

/-! ### The Background Selector -/

theorem pick_random_video_ok_mem (files : List String) (r : ℕ) (v : String)
    (hv : pick_random_video files r = .ok v) :
    v ∈ files.filter (fun f => matchesMp4 f) := by
  unfold pick_random_video at hv
  split at hv
  · simp at hv
  · next w ws heq =>
    rw [Except.ok.injEq] at hv
    rw [heq]
    exact hv ▸ List.get_mem _ _ _

/-- Claim C5: Over a folder whose `*.mp4` candidate pool is non-empty the
selector returns (for every random draw) an element of that pool — in
particular over the pool `["a.mp4"]` it always returns `"a.mp4"` — and over an
empty candidate pool it fails with `NoAssetsError` (the `exit(1)` abort of
main.py lines 103-104). -/
theorem selector_member (files : List String) (r : ℕ) :
    (files.filter (fun f => matchesMp4 f) ≠ [] →
      ∃ v, pick_random_video files r = .ok v ∧
        v ∈ files.filter (fun f => matchesMp4 f)) ∧
    (files.filter (fun f => matchesMp4 f) = [] →
      pick_random_video files r = .error .NoAssetsError) ∧
    pick_random_video ["a.mp4"] r = .ok "a.mp4" := by
  refine ⟨?_, ?_, ?_⟩
  · intro hne
    unfold pick_random_video
    split
    · next heq => exact absurd heq hne
    · next w ws heq =>
      exact ⟨_, rfl, pick_random_video_ok_mem files r _ (by rw [pick_random_video, heq])⟩
  · intro h
    unfold pick_random_video
    split
    · rfl
    · next w ws heq => rw [h] at heq; exact absurd heq (by simp)
  · have hf : (["a.mp4"] : List String).filter (fun f => matchesMp4 f) = ["a.mp4"] := by
      decide
    simp [pick_random_video, hf, Nat.mod_one]

theorem selector_member_witness :
    ∃ v, pick_random_video ["a.mp4", "b.txt", "c.mp4"] 5 = .ok v ∧
      v ∈ (["a.mp4", "b.txt", "c.mp4"] : List String).filter (fun f => matchesMp4 f) :=
  (selector_member ["a.mp4", "b.txt", "c.mp4"] 5).1 (by decide)

/-- Claim C10: The selector's candidate pool is exactly the files matching
`*.mp4`: every successfully returned file is one of the folder's files and
matches `*.mp4`, and a folder none of whose files matches `*.mp4` behaves as
an empty pool — the selector fails with `NoAssetsError`. -/
theorem selector_restricts_to_mp4 (files : List String) (r : ℕ) :
    (∀ v, pick_random_video files r = .ok v →
      matchesMp4 v = true ∧ v ∈ files) ∧
    ((∀ f ∈ files, matchesMp4 f = false) →
      pick_random_video files r = .error .NoAssetsError) := by
  constructor
  · intro v hv
    have hmem := pick_random_video_ok_mem files r v hv
    rw [List.mem_filter] at hmem
    exact ⟨hmem.2, hmem.1⟩
  · intro hall
    have hf : files.filter (fun f => matchesMp4 f) = [] := by
      rw [List.filter_eq_nil_iff]
      intro a ha
      simp [hall a ha]
    unfold pick_random_video
    split
    · rfl
    · next w ws heq => rw [hf] at heq; exact absurd heq (by simp)

theorem selector_restricts_to_mp4_witness :
    pick_random_video ["clip.avi", "movie.mkv"] 7 = .error .NoAssetsError :=
  (selector_restricts_to_mp4 ["clip.avi", "movie.mkv"] 7).2 (by decide)

/-! ### The Composer -/

/-- Claim C9: Composing with an empty segment sequence still yields a render job
holding the base video layer and the audio layer with zero text overlays — a
normal result, not an error. -/
theorem composer_empty_segments (video audio : String) :
    compose video audio [] =
      { baseVideo := video, overlays := [], audio := audio } := by
  simp [compose]

/-! ### Lemmas about the Text Sanitizer -/

theorem pySplitAux_good (s : List Char) :
    ∀ acc, (∀ c ∈ acc, pyIsSpace c = false) →
      ∀ t ∈ pySplitAux s acc, t ≠ [] ∧ ∀ c ∈ t, pyIsSpace c = false := by
  induction s with
  | nil =>
    intro acc hacc t ht
    unfold pySplitAux at ht
    split at ht
    · simp at ht
    · next hne =>
      simp only [List.mem_singleton] at ht
      subst ht
      refine ⟨by simpa using hne, ?_⟩
      intro c hc
      exact hacc c (List.mem_reverse.mp hc)
  | cons c cs ih =>
    intro acc hacc t ht
    unfold pySplitAux at ht
    split at ht
    · split at ht
      · exact ih [] (by simp) t ht
      · next hne =>
        rcases List.mem_cons.mp ht with h1 | h2
        · subst h1
          refine ⟨by simpa using hne, ?_⟩
          intro x hx
          exact hacc x (List.mem_reverse.mp hx)
        · exact ih [] (by simp) t h2
    · next hns =>
      refine ih (c :: acc) ?_ t ht
      intro x hx
      rcases List.mem_cons.mp hx with h1 | h2
      · subst h1
        simpa using hns
      · exact hacc x h2

theorem pySplitAux_append (w : List Char) (rest : List Char)
    (hw : ∀ c ∈ w, pyIsSpace c = false) :
    ∀ acc, pySplitAux (w ++ rest) acc = pySplitAux rest (w.reverse ++ acc) := by
  induction w with
  | nil => intro acc; simp
  | cons c cs ih =>
    intro acc
    have hc : pyIsSpace c = false := hw c (by simp)
    simp only [List.cons_append, pySplitAux, hc, Bool.false_eq_true, if_false,
      List.append_eq]
    rw [ih (fun x hx => hw x (by simp [hx])) (c :: acc)]
    simp

theorem pySplit_single (w : List Char) (hne : w ≠ [])
    (hw : ∀ c ∈ w, pyIsSpace c = false) : pySplit w = [w] := by
  have h1 := pySplitAux_append w [] hw []
  simp only [List.append_nil] at h1
  rw [pySplit, h1]
  unfold pySplitAux
  simp [hne]

theorem pySplit_joinWords (ws : List (List Char))
    (hws : ∀ w ∈ ws, w ≠ [] ∧ ∀ c ∈ w, pyIsSpace c = false) :
    pySplit (joinWords ws) = ws := by
  induction ws with
  | nil => rfl
  | cons w ws ih =>
    cases ws with
    | nil =>
      have hw := hws w (by simp)
      exact pySplit_single w hw.1 hw.2
    | cons v vs =>
      have hw := hws w (by simp)
      have h1 : joinWords (w :: v :: vs) = w ++ ' ' :: joinWords (v :: vs) := rfl
      rw [pySplit, h1, pySplitAux_append w _ hw.2 []]
      simp only [List.append_nil]
      have hsp : pyIsSpace ' ' = true := rfl
      simp only [pySplitAux, hsp, if_true]
      have hrne : w.reverse ≠ [] := by simpa using hw.1
      rw [if_neg hrne]
      simp only [List.reverse_reverse]
      congr 1
      exact ih fun x hx => hws x (by simp [hx])

theorem lookup_mem_values (k r : List Char)
    (h : FAMILY_FRIENDLY_REPLACEMENTS.lookup k = some r) :
    r ∈ ["darn".data, "heck".data, "poop".data, "fudge".data, "witch".data,
         "meanie".data, "rascal".data] := by
  simp only [FAMILY_FRIENDLY_REPLACEMENTS, List.lookup] at h
  repeat' split at h
  all_goals simp_all

theorem replaceWord_good (w : List Char) (hne : w ≠ [])
    (hw : ∀ c ∈ w, pyIsSpace c = false) :
    replaceWord w ≠ [] ∧ ∀ c ∈ replaceWord w, pyIsSpace c = false := by
  cases hl : FAMILY_FRIENDLY_REPLACEMENTS.lookup (pyLower w) with
  | none => simpa [replaceWord, hl] using ⟨hne, hw⟩
  | some r =>
    have h0 : replaceWord w = r := by simp [replaceWord, hl]
    rw [h0]
    have hr := lookup_mem_values _ _ hl
    fin_cases hr <;> exact ⟨by decide, by decide⟩

theorem replaceWord_idem (w : List Char) :
    replaceWord (replaceWord w) = replaceWord w := by
  cases hl : FAMILY_FRIENDLY_REPLACEMENTS.lookup (pyLower w) with
  | none =>
    have h0 : replaceWord w = w := by simp [replaceWord, hl]
    rw [h0]
    exact h0
  | some r =>
    have h0 : replaceWord w = r := by simp [replaceWord, hl]
    rw [h0]
    have hr := lookup_mem_values _ _ hl
    fin_cases hr <;> decide

theorem filter_tokens_good (x : String) :
    ∀ t ∈ (pySplit x.data).map replaceWord,
      t ≠ [] ∧ ∀ c ∈ t, pyIsSpace c = false := by
  intro t ht
  rcases List.mem_map.mp ht with ⟨u, hu, rfl⟩
  have hu2 := pySplitAux_good x.data [] (by simp) u hu
  exact replaceWord_good u hu2.1 hu2.2

theorem pySplit_filter_text (x : String) :
    pySplit (filter_text x).data = (pySplit x.data).map replaceWord := by
  rw [show (filter_text x).data = joinWords ((pySplit x.data).map replaceWord)
    from rfl]
  exact pySplit_joinWords _ (filter_tokens_good x)

/-- Claim C6: The Sanitizer is idempotent: filtering an already filtered string
changes nothing. -/
theorem sanitizer_idempotent (x : String) :
    filter_text (filter_text x) = filter_text x := by
  unfold filter_text
  congr 1
  rw [show (⟨joinWords ((pySplit x.data).map replaceWord)⟩ : String) =
      filter_text x from rfl]
  rw [pySplit_filter_text x]
  congr 1
  rw [List.map_map]
  apply List.map_congr_left
  intro a _
  exact replaceWord_idem a

/-- Claim C7: The Sanitizer preserves the whitespace-token structure: the
filtered string tokenizes to exactly the per-token replacements of the input's
tokens (same count, same order, no merging or splitting), and every token
whose lowercase form is not a key of the replacement table passes through
unchanged. -/
theorem sanitizer_preserves_tokens (x : String) :
    pySplit (filter_text x).data = (pySplit x.data).map replaceWord ∧
    (pySplit (filter_text x).data).length = (pySplit x.data).length ∧
    ∀ w ∈ pySplit x.data,
      FAMILY_FRIENDLY_REPLACEMENTS.lookup (pyLower w) = none →
        replaceWord w = w := by
  refine ⟨pySplit_filter_text x, ?_, ?_⟩
  · rw [pySplit_filter_text x, List.length_map]
  · intro w _ hnone
    simp [replaceWord, hnone]

/-! ### The Frame Transformer -/

/-- Claim C4, counterexample: A decodable 540×1920 source (aspect ratio 9:32,
narrower than 9:16) keeps width 540 when scaled to height 1920 — smaller than
1080 — and the center crop then yields a frame of width 270, not 1080: the
numpy slice `frame[:, -270:810]` of a 540-wide frame has 270 columns. -/
theorem transformer_dims_counterexample :
    resize_crop_dims 540 1920 ≠ (1080, 1920) ∧
    resize_crop_dims 540 1920 = (270, 1920) := by
  have h : resize_crop_dims 540 1920 = (270, 1920) := by
    norm_num [resize_crop_dims, npSliceLen, npBound, pytrunc, Int.ceil_neg,
      Int.ceil_intCast, Int.ceil_natCast]
    decide
  exact ⟨by rw [h]; decide, h⟩

/-- Claim C4, amended: The transformation yields exactly 1080×1920 whenever the
width after scaling to height 1920, `⌊w·1920/h⌋`, is at least 1080 (source
aspect ratio at least 9:16).  For narrower sources the crop does not pad and
the output is narrower than 1080 (see the counterexample). -/
theorem transformer_dims (w h : ℕ) (hwide : 1080 ≤ w * 1920 / h) :
    resize_crop_dims w h = (1080, 1920) := by
  unfold resize_crop_dims
  set n : ℕ := w * 1920 / h with hn
  clear_value n
  have hx1 : pytrunc ((n : ℚ) / 2 - 1080 / 2) = ((n / 2 : ℕ) : ℤ) - 540 := by
    have hnq : (1080 : ℚ) ≤ (n : ℚ) := by exact_mod_cast hwide
    have hge : (0 : ℚ) ≤ (n : ℚ) / 2 - 1080 / 2 := by linarith
    rw [pytrunc, if_pos hge]
    have he : (n : ℚ) / 2 - 1080 / 2 = (n : ℚ) / 2 - ((540 : ℤ) : ℚ) := by
      norm_num
    rw [he, Int.floor_sub_int]
    congr 1
    have := Rat.floor_natCast_div_natCast n 2
    exact_mod_cast this
  have hx2 : pytrunc ((n : ℚ) / 2 + 1080 / 2) = ((n / 2 : ℕ) : ℤ) + 540 := by
    have hge : (0 : ℚ) ≤ (n : ℚ) / 2 + 1080 / 2 := by positivity
    rw [pytrunc, if_pos hge]
    have he : (n : ℚ) / 2 + 1080 / 2 = (n : ℚ) / 2 + ((540 : ℤ) : ℚ) := by
      norm_num
    rw [he, Int.floor_add_int]
    congr 1
    have := Rat.floor_natCast_div_natCast n 2
    exact_mod_cast this
  have hy1 : pytrunc (((1920 : ℕ) : ℚ) / 2 - 1920 / 2) = 0 := by
    norm_num [pytrunc]
  have hy2 : pytrunc (((1920 : ℕ) : ℚ) / 2 + 1920 / 2) = 1920 := by
    rw [pytrunc, if_pos (by norm_num)]
    norm_num
  simp only [hx1, hx2, hy1, hy2, Prod.mk.injEq]
  constructor
  · simp only [npSliceLen, npBound]
    split_ifs <;> omega
  · simp only [npSliceLen, npBound]
    split_ifs <;> omega

theorem transformer_dims_witness : resize_crop_dims 1080 1920 = (1080, 1920) :=
  transformer_dims 1080 1920 (by decide)

theorem sanitizer_idempotent_witness :
    filter_text (filter_text "What the hell") = filter_text "What the hell" :=
  sanitizer_idempotent "What the hell"

theorem sanitizer_preserves_tokens_witness :
    replaceWord "good".data = "good".data :=
  (sanitizer_preserves_tokens "good morning damn world").2.2 "good".data
    (by decide) (by decide)

theorem composer_empty_segments_witness :
    compose "bg.mp4" "voice.mp3" [] =
      { baseVideo := "bg.mp4", overlays := [], audio := "voice.mp3" } :=
  composer_empty_segments "bg.mp4" "voice.mp3"
